import Mathlib

/-!
Shallow embedding of the booking admission / serialization subsystem of the
clinic-scheduling backend (drizzle + hono TypeScript service).

Source correspondence:
* `src/services/booking.service.ts` — `allocateSerial`, `assertWithinAvailability`,
  `ALLOWED_TRANSITIONS`, `assertValidTransition`, `getBookingOrThrow`
* `src/controllers/booking.controller.ts` — `bookingController.create` / `update` / `delete`
* `src/services/availability.service.ts` — `timeToMinutes`, `minutesToTime`,
  `isDuringBreak`, `getSlotsForDate`
* `src/sse/queue.sse.ts` — `createSseStream`, `publishQueueEvent`, `startHeartbeat`
* `src/routes/sse.routes.ts` — the queue subscription endpoint
* `src/db/schema/schema.ts` — the `booking` table with its `unique_serial`
  constraint on (doctorId, dailySerial, serialDate)

Conventions of the embedding: database tables become lists of rows inside a
`Store`; SQL queries become list operations; `throw new AppError(...)` becomes
`Except.error`; JavaScript `Date` handling is abstracted by a day-of-week
function `g : String → Nat` (for `new Date(dateStr).getDay()`) and by
minute-of-day values (for `getUTCHours() * 60 + getUTCMinutes()`).
-/

namespace ApiServer

/-- The `booking_status` pg enum from `schema.ts`. -/
inductive BookingStatus where
  | pending
  | confirmed
  | cancelled
  | completed
  | no_show
deriving DecidableEq, Fintype

/-- Render a status the way the TypeScript string union spells it (used in
the `INVALID_TRANSITION` error message). -/
def BookingStatus.text : BookingStatus → String
  | .pending => "pending"
  | .confirmed => "confirmed"
  | .cancelled => "cancelled"
  | .completed => "completed"
  | .no_show => "no_show"

/-- `AppError` from `src/lib/response.ts`: message, HTTP status, optional
machine-readable code. -/
structure AppError where
  message : String
  status : Nat
  code : Option String
deriving DecidableEq

/-- A break interval in minutes since midnight; the source JSON shape is
`{start, end}` (half-open `[start, end)`); `end` is a Lean keyword so the
field is named `stop`. -/
structure BreakSlot where
  start : Nat
  stop : Nat
deriving DecidableEq

/-- Split a character list on the `:` separator (kernel-computable stand-in
for JavaScript `t.split(":")`). -/
def splitColon (cs : List Char) : List (List Char) :=
  cs.foldr
    (fun c acc =>
      if c = ':' then [] :: acc
      else
        match acc with
        | [] => [[c]]
        | h :: t => (c :: h) :: t)
    [[]]

/-- Decimal digits to a number (JavaScript `Number` on a digit string). -/
def digitsToNat (cs : List Char) : Nat :=
  cs.foldl (fun n c => n * 10 + (c.toNat - 48)) 0

/-- `timeToMinutes` from `availability.service.ts`:
`const [h, m] = t.split(":").map(Number); return h * 60 + m;`. -/
def timeToMinutes (t : String) : Nat :=
  match (splitColon t.data).map digitsToNat with
  | [h, m] => h * 60 + m
  | _ => 0

/-- JavaScript `a.startsWith(b)`, computed on the character lists. -/
def strStartsWith (s p : String) : Bool :=
  p.data.isPrefixOf s.data

/-- JavaScript `n.toString().padStart(2, "0")`. -/
def padTwo (n : Nat) : String :=
  if n < 10 then "0" ++ toString n else toString n

/-- `minutesToTime` from `availability.service.ts`. -/
def minutesToTime (m : Nat) : String :=
  padTwo (m / 60) ++ ":" ++ padTwo (m % 60)

/-- `isDuringBreak` from `availability.service.ts`:
`breaks.some((b) => minute >= b.start && minute < b.end)`. -/
def isDuringBreak (minute : Nat) (breaks : List BreakSlot) : Bool :=
  breaks.any (fun b => decide (b.start ≤ minute ∧ minute < b.stop))

/-- One row of the `availability_rules` table (fields consulted by the
booking/slot queries; `recurrentType`, `dayOfMonth` and `createdAt` are never
read by those queries and are omitted).  `startTime`/`endTime` are `time`
columns, NOT NULL, carried as "HH:MM" strings like the driver returns them. -/
structure AvailabilityRule where
  id : String
  doctorId : String
  clinicId : String
  dayOfWeek : Option Nat
  startTime : String
  endTime : String
  breaks : List BreakSlot
  isActive : Bool
deriving DecidableEq

/-- One row of the `booking` table (timestamps abstracted away;
`scheduledAt` is carried as its UTC minute-of-day, the only thing
`assertWithinAvailability` reads from it; `bookVia` is informational and
omitted). -/
structure BookingRow where
  id : String
  doctorId : String
  clinicId : String
  patientId : String
  appointmentTypeId : Option String
  bookingStatus : BookingStatus
  dailySerial : Nat
  serialDate : String
  scheduledAt : Option Nat
  cancelNote : Option String
deriving DecidableEq

/-- The relational store: the tables the booking pipeline touches.  Doctors
are carried by id, doctor-clinic assignments as pairs (the fields the
queries read). -/
structure Store where
  doctors : List String
  doctorClinic : List (String × String)
  rules : List AvailabilityRule
  bookings : List BookingRow
deriving DecidableEq

/-! ## Serial allocator (`allocateSerial`, booking.service.ts) -/

/-- The WHERE clause of the allocator's query:
`doctor_id = ${doctorId} AND serial_date = ${serialDate}`. -/
def matchesDay (b : BookingRow) (doctorId serialDate : String) : Bool :=
  b.doctorId == doctorId && b.serialDate == serialDate

/-- `COALESCE(MAX(daily_serial), 0)` over the rows matching (doctorId, serialDate). -/
def maxDailySerial (bookings : List BookingRow) (doctorId serialDate : String) : Nat :=
  ((bookings.filter (fun b => matchesDay b doctorId serialDate)).map
    (fun b => b.dailySerial)).foldl max 0

/-- `allocateSerial` from booking.service.ts:
`SELECT COALESCE(MAX(daily_serial), 0) + 1 AS next_serial FROM booking WHERE ... FOR UPDATE`. -/
def allocateSerial (bookings : List BookingRow) (doctorId serialDate : String) : Nat :=
  maxDailySerial bookings doctorId serialDate + 1

/-! ## Typed errors (`AppError` values thrown by the pipeline) -/

def errDoctorNotFound : AppError :=
  { message := "Doctor not found", status := 404, code := none }

def errDoctorNotInClinic : AppError :=
  { message := "Doctor is not assigned to this clinic", status := 409,
    code := some "DOCTOR_NOT_IN_CLINIC" }

def errNoAvailability : AppError :=
  { message := "Doctor is not available at this clinic on the requested date",
    status := 409, code := some "NO_AVAILABILITY" }

def errOutsideHours (rule : AvailabilityRule) : AppError :=
  { message := "Scheduled time is outside doctor availability (" ++
      rule.startTime ++ "–" ++ rule.endTime ++ ")",
    status := 409, code := some "OUTSIDE_HOURS" }

def errDuringBreak : AppError :=
  { message := "Scheduled time falls within a break period", status := 409,
    code := some "DURING_BREAK" }

def errInvalidTransition (current next : BookingStatus) : AppError :=
  { message := "Cannot transition booking from \"" ++ current.text ++
      "\" to \"" ++ next.text ++ "\"",
    status := 409, code := some "INVALID_TRANSITION" }

def errCancelNoteRequired : AppError :=
  { message := "cancelNote is required when cancelling a booking",
    status := 400, code := some "CANCEL_NOTE_REQUIRED" }

def errBookingNotFound : AppError :=
  { message := "Booking not found", status := 404, code := none }

/-! ## Booking state machine (booking.service.ts) -/

/-- `ALLOWED_TRANSITIONS` from booking.service.ts, record turned into a
function on the enum. -/
def ALLOWED_TRANSITIONS : BookingStatus → List BookingStatus
  | .pending => [.confirmed, .cancelled]
  | .confirmed => [.completed, .cancelled, .no_show]
  | .completed => []
  | .cancelled => []
  | .no_show => []

/-- `assertValidTransition` from booking.service.ts:
`if (!allowed.includes(next)) throw new AppError(..., 409, "INVALID_TRANSITION")`. -/
def assertValidTransition (current next : BookingStatus) : Except AppError Unit :=
  if !(ALLOWED_TRANSITIONS current).contains next then
    .error (errInvalidTransition current next)
  else
    .ok ()

/-! ## Availability checks -/

/-- The active-rule lookup shared (verbatim, modulo the drizzle builder) by
`assertWithinAvailability` (booking.service.ts) and `getSlotsForDate`
(availability.service.ts): first active rule for (doctorId, clinicId) whose
`dayOfWeek` equals the requested date's day of week.  `g` stands for
JavaScript `(d : string) => new Date(d).getDay()`. -/
def findActiveRule (rules : List AvailabilityRule) (g : String → Nat)
    (doctorId clinicId date : String) : Option AvailabilityRule :=
  rules.find? (fun r =>
    r.doctorId == doctorId && r.clinicId == clinicId && r.isActive &&
      r.dayOfWeek == some (g date))

/-- `assertWithinAvailability` from booking.service.ts.  `scheduledAt` is the
UTC minute-of-day of the requested timestamp when one was supplied. -/
def assertWithinAvailability (rules : List AvailabilityRule) (g : String → Nat)
    (doctorId clinicId serialDate : String) (scheduledAt : Option Nat) :
    Except AppError Unit :=
  match findActiveRule rules g doctorId clinicId serialDate with
  | none => .error errNoAvailability
  | some rule =>
    match scheduledAt with
    | none => .ok ()
    | some requestedMinutes =>
      if requestedMinutes < timeToMinutes rule.startTime ∨
          timeToMinutes rule.endTime ≤ requestedMinutes then
        .error (errOutsideHours rule)
      else if rule.breaks.any (fun b =>
          decide (b.start ≤ requestedMinutes ∧ requestedMinutes < b.stop)) then
        .error errDuringBreak
      else
        .ok ()

/-- `getDoctorOrThrow` from doctor.service.ts (the row itself is not used by
the admission path beyond existence). -/
def getDoctorOrThrow (s : Store) (id : String) : Except AppError Unit :=
  if s.doctors.contains id then .ok () else .error errDoctorNotFound

/-- `assertDoctorInClinic` from doctor.service.ts. -/
def assertDoctorInClinic (s : Store) (doctorId clinicId : String) :
    Except AppError Unit :=
  if s.doctorClinic.contains (doctorId, clinicId) then .ok ()
  else .error errDoctorNotInClinic

/-! ## Queue events and controller outcomes -/

/-- The `type` field of `QueueEvent` (queue.sse.ts). -/
inductive QueueEventType where
  | booking_created
  | booking_updated
  | booking_cancelled
  | queue_position
deriving DecidableEq

/-- `QueueEvent` from queue.sse.ts (wall-clock `timestamp` and the unused
`position` / `estimatedWaitMinutes` fields abstracted away). -/
structure QueueEvent where
  type : QueueEventType
  bookingId : String
  doctorId : String
  date : String
  serial : Option Nat
  status : Option BookingStatus
deriving DecidableEq

/-- Externally visible side-effecting steps of a controller, in program
order: the durable database write (transaction commit / single-statement
write) and each `publishQueueEvent` call. -/
inductive Action where
  | dbWrite
  | publish (e : QueueEvent)
deriving DecidableEq

/-- Result of running one controller handler: the HTTP-visible result, the
store after the handler, and the ordered trace of write/publish actions. -/
structure Outcome (α : Type) where
  result : Except AppError α
  store : Store
  actions : List Action

/-! ## Admission controller (`bookingController`, booking.controller.ts) -/

/-- Validated body of `POST /doctors/:id/bookings` (`createBookingSchema`);
`bookVia` is informational and omitted; `scheduledAt` abstracted to its UTC
minute-of-day. -/
structure CreateBookingBody where
  clinicId : String
  patientId : String
  appointmentTypeId : Option String
  serialDate : String
  scheduledAt : Option Nat
deriving DecidableEq

/-- The row `bookingController.create` inserts inside the transaction:
`{...body, doctorId, dailySerial, scheduledAt}` with the schema default
status `pending`. -/
def mkBookingRow (newId doctorId : String) (body : CreateBookingBody)
    (dailySerial : Nat) : BookingRow :=
  { id := newId
    doctorId := doctorId
    clinicId := body.clinicId
    patientId := body.patientId
    appointmentTypeId := body.appointmentTypeId
    bookingStatus := .pending
    dailySerial := dailySerial
    serialDate := body.serialDate
    scheduledAt := body.scheduledAt
    cancelNote := none }

/-- `bookingController.create`: doctor existence, clinic assignment and
availability checks in order, then — inside one transaction — serial
allocation and insert, then one `publishQueueEvent` call after the
transaction returns.  `newId` stands for the generated row uuid. -/
def createBooking (s : Store) (g : String → Nat) (newId doctorId : String)
    (body : CreateBookingBody) : Outcome BookingRow :=
  match getDoctorOrThrow s doctorId with
  | .error e => { result := .error e, store := s, actions := [] }
  | .ok _ =>
  match assertDoctorInClinic s doctorId body.clinicId with
  | .error e => { result := .error e, store := s, actions := [] }
  | .ok _ =>
  match assertWithinAvailability s.rules g doctorId body.clinicId
      body.serialDate body.scheduledAt with
  | .error e => { result := .error e, store := s, actions := [] }
  | .ok _ =>
    let dailySerial := allocateSerial s.bookings doctorId body.serialDate
    let row := mkBookingRow newId doctorId body dailySerial
    { result := .ok row
      store := { s with bookings := s.bookings ++ [row] }
      actions := [Action.dbWrite, Action.publish
        { type := .booking_created, bookingId := row.id, doctorId := doctorId,
          date := body.serialDate, serial := some row.dailySerial,
          status := some row.bookingStatus }] }

/-- Validated body of `PATCH /bookings/:id` (`updateBookingSchema`):
all three fields optional. -/
structure UpdateBookingBody where
  bookingStatus : Option BookingStatus
  cancelNote : Option String
  scheduledAt : Option Nat
deriving DecidableEq

/-- `getBookingOrThrow` from booking.service.ts (`SELECT ... WHERE id = _ LIMIT 1`). -/
def findBooking (s : Store) (id : String) : Option BookingRow :=
  s.bookings.find? (fun b => b.id == id)

/-- The drizzle `.set({...body, scheduledAt, updatedAt})` applied to one row:
fields present in the patch overwrite, absent fields are left unchanged. -/
def applyPatch (b : BookingRow) (patch : UpdateBookingBody) : BookingRow :=
  { b with
    bookingStatus := patch.bookingStatus.getD b.bookingStatus
    cancelNote :=
      match patch.cancelNote with
      | some n => some n
      | none => b.cancelNote
    scheduledAt :=
      match patch.scheduledAt with
      | some t => some t
      | none => b.scheduledAt }

/-- `bookingController.update`: state-machine check (only when the patch
carries a status), the cancellation-note guard (`!body.cancelNote` is true
for an absent or empty note), the row update, then one `publishQueueEvent`
whose type is `booking_cancelled` exactly when the updated row's status is
`cancelled`. -/
def updateBooking (s : Store) (id : String) (patch : UpdateBookingBody) :
    Outcome BookingRow :=
  let transitionCheck : Except AppError Unit :=
    match patch.bookingStatus with
    | none => .ok ()
    | some requested =>
      match findBooking s id with
      | none => .error errBookingNotFound
      | some current => assertValidTransition current.bookingStatus requested
  match transitionCheck with
  | .error e => { result := .error e, store := s, actions := [] }
  | .ok _ =>
  if patch.bookingStatus == some .cancelled && (patch.cancelNote.getD "").isEmpty then
    { result := .error errCancelNoteRequired, store := s, actions := [] }
  else
    match findBooking s id with
    | none => { result := .error errBookingNotFound, store := s, actions := [] }
    | some row0 =>
      let row := applyPatch row0 patch
      let eventType : QueueEventType :=
        if row.bookingStatus == .cancelled then .booking_cancelled
        else .booking_updated
      let bookings' := s.bookings.map (fun b => if b.id == id then applyPatch b patch else b)
      { result := .ok row
        store := { s with bookings := bookings' }
        actions := [Action.dbWrite, Action.publish
          { type := eventType, bookingId := row.id, doctorId := row.doctorId,
            date := row.serialDate, serial := some row.dailySerial,
            status := some row.bookingStatus }] }

/-- `bookingController.delete`: administrative hard delete
(`DELETE ... WHERE id = _ RETURNING id, doctor_id, serial_date`), 404 when no
row matched, then one `booking_cancelled` publish (without serial/status). -/
def deleteBooking (s : Store) (id : String) : Outcome BookingRow :=
  match findBooking s id with
  | none => { result := .error errBookingNotFound, store := s, actions := [] }
  | some row =>
    { result := .ok row
      store := { s with bookings := s.bookings.filter (fun b => !(b.id == id)) }
      actions := [Action.dbWrite, Action.publish
        { type := .booking_cancelled, bookingId := row.id,
          doctorId := row.doctorId, date := row.serialDate,
          serial := none, status := none }] }

/-! ## Queue notification hub (queue.sse.ts) and the SSE route -/

/-- A registry entry from queue.sse.ts (`controller` handle abstracted away):
channel coordinates plus the optional patient filter. -/
structure Subscriber where
  doctorId : String
  date : String
  patientId : Option String
deriving DecidableEq

/-- `channelKey` from queue.sse.ts. -/
def channelKey (doctorId date : String) : String :=
  doctorId ++ ":" ++ date

/-- The per-subscriber filter inside `publishQueueEvent`:
`!sub.patientId || event.bookingId.startsWith(sub.patientId ?? "")`. -/
def shouldReceive (sub : Subscriber) (event : QueueEvent) : Bool :=
  sub.patientId.isNone || strStartsWith event.bookingId (sub.patientId.getD "")

/-- `publishQueueEvent` restricted to its delivery decision: the subscribers
of the event's channel that pass `shouldReceive` (dead-controller pruning is
transport-level and abstracted away). -/
def deliveredTo (subs : List Subscriber) (event : QueueEvent) : List Subscriber :=
  subs.filter (fun sub =>
    channelKey sub.doctorId sub.date == channelKey event.doctorId event.date &&
      shouldReceive sub event)

/-- Observable shape of one SSE stream as built by `createSseStream`
(queue.sse.ts): the event names enqueued by the `start` handler, and whether
a periodic ping interval was attached to the stream. -/
structure SseStreamModel where
  initialEventNames : List String
  pingEveryMs : Option Nat
deriving DecidableEq

/-- `createSseStream` from queue.sse.ts: the `start` handler registers the
subscriber and enqueues the single `connected` event; no call to
`startHeartbeat` (or any `setInterval`) occurs in it, so no ping timer is
attached to the stream it returns. -/
def createSseStream (doctorId date : String) (patientId : Option String) :
    Subscriber × SseStreamModel :=
  ({ doctorId := doctorId, date := date, patientId := patientId },
   { initialEventNames := ["connected"], pingEveryMs := none })

/-- `startHeartbeat` from queue.sse.ts: attaches a `setInterval` (default
25000 ms) emitting ping frames.  The function is exported but — decisive for
the heartbeat claim — has no call site anywhere in the repository. -/
def startHeartbeat (intervalMs : Nat) (m : SseStreamModel) : SseStreamModel :=
  { m with pingEveryMs := some intervalMs }

/-- Default `intervalMs` of `startHeartbeat` (25 s). -/
def startHeartbeatDefaultMs : Nat := 25000

/-- The handler of `GET /sse/queue/:doctorId` (sse.routes.ts): derives the
patient filter from the caller's organisation role (staff-like roles get no
filter, everyone else is filtered by their user id) and returns the stream
built by `createSseStream` — and nothing else touches the stream before it
is handed to the `Response`. -/
def sseQueueHandler (doctorId date : String) (userRole userId : String) :
    Subscriber × SseStreamModel :=
  let patientIdFilter : Option String :=
    if userRole == "staff" || userRole == "doctor" || userRole == "admin" ||
        userRole == "owner" then none
    else some userId
  createSseStream doctorId date patientIdFilter

/-! ## Availability resolver (`getSlotsForDate`, availability.service.ts) -/

/-- `TimeSlot` from availability.service.ts. -/
structure TimeSlot where
  start : String
  stop : String
  available : Bool
  serial : Nat
deriving DecidableEq

/-- The slot-walking `for` loop of `getSlotsForDate`: from `cursor`, emit a
slot per step that fits (`cursor + slotDuration <= end`) and is not inside a
break; the serial counter advances only on emitted slots. -/
def slotsGo (d endM : Nat) (hd : 0 < d) (breaks : List BreakSlot)
    (booked : List Nat) (cursor serial : Nat) : List TimeSlot :=
  if h : cursor + d ≤ endM then
    if isDuringBreak cursor breaks then
      slotsGo d endM hd breaks booked (cursor + d) serial
    else
      { start := minutesToTime cursor
        stop := minutesToTime (cursor + d)
        available := !(booked.contains serial)
        serial := serial } :: slotsGo d endM hd breaks booked (cursor + d) (serial + 1)
  else []
termination_by endM - cursor
decreasing_by all_goals omega

/-- The pure slot computation of `getSlotsForDate` once the rule row and the
booked serials are in hand (loop starts at `timeToMinutes startTime` with
serial 1).  A non-positive slot duration would not terminate in the source;
the embedding returns `[]` for it. -/
def computeSlots (startTime endTime : String) (breaks : List BreakSlot)
    (booked : List Nat) (slotDuration : Nat) : List TimeSlot :=
  if hd : 0 < slotDuration then
    slotsGo slotDuration (timeToMinutes endTime) hd breaks booked
      (timeToMinutes startTime) 1
  else []

/-- `getSlotsForDate` from availability.service.ts: active-rule lookup (same
query as `assertWithinAvailability`), booked serials of that
doctor/clinic/date, then the slot walk. -/
def getSlotsForDate (s : Store) (g : String → Nat)
    (doctorId clinicId date : String) (slotDurationMinutes : Nat) : List TimeSlot :=
  match findActiveRule s.rules g doctorId clinicId date with
  | none => []
  | some rule =>
    let booked := ((s.bookings.filter (fun b =>
      b.doctorId == doctorId && b.clinicId == clinicId && b.serialDate == date)).map
        (fun b => b.dailySerial))
    computeSlots rule.startTime rule.endTime rule.breaks booked slotDurationMinutes

/-- Modelled from the spec: the §4.1 description of `computeSlots`, written
independently of the source loop as the refinement target — walk
`[startTime, endTime)` in fixed steps, emit a step iff its start minute is
in no break (half-open containment), give emitted slots strictly increasing
1-based serials, a slot being available iff its serial is not already
booked. -/
def computeSlotsSpec (startM endM d : Nat) (breaks : List BreakSlot)
    (booked : List Nat) : List TimeSlot :=
  let steps := (List.range ((endM - startM) / d)).map (fun k => startM + k * d)
  let kept := steps.filter (fun c => !(isDuringBreak c breaks))
  (kept.enumFrom 1).map (fun p =>
    { start := minutesToTime p.2
      stop := minutesToTime (p.2 + d)
      available := !(booked.contains p.1)
      serial := p.1 })

/-! ## Invariants and reachability -/

/-- The `unique_serial` constraint of the `booking` table: no two rows share
the (doctorId, dailySerial, serialDate) triple. -/
def UniqueTriples (s : Store) : Prop :=
  s.bookings.Pairwise (fun a b =>
    ¬(a.doctorId = b.doctorId ∧ a.serialDate = b.serialDate ∧
      a.dailySerial = b.dailySerial))

/-- Booking-store states reachable by the admission controller under
sequential operation: any bookings-empty initial state, then any sequence of
create / update / delete handler runs (failed runs leave the store
unchanged, so they are covered too). -/
inductive Reachable (g : String → Nat) : Store → Prop where
  | init (doctors : List String) (doctorClinic : List (String × String))
      (rules : List AvailabilityRule) :
      Reachable g ⟨doctors, doctorClinic, rules, []⟩
  | create (s : Store) (newId doctorId : String) (body : CreateBookingBody) :
      Reachable g s → Reachable g (createBooking s g newId doctorId body).store
  | update (s : Store) (id : String) (patch : UpdateBookingBody) :
      Reachable g s → Reachable g (updateBooking s id patch).store
  | delete (s : Store) (id : String) :
      Reachable g s → Reachable g (deleteBooking s id).store

/-- Temporal ordering of a handler's side effects: every published event is
preceded (strictly) by a completed database write in the action trace. -/
def publishesOnlyAfterWrite (acts : List Action) : Prop :=
  ∀ i : Fin acts.length, (∃ e, acts.get i = Action.publish e) →
    ∃ j : Fin acts.length, (j : Nat) < (i : Nat) ∧ acts.get j = Action.dbWrite

/-! ## Concrete fixtures (used by witnesses and counterexamples) -/

/-- Day-of-week function of a world where every queried date is a Monday
(2025-06-02, the spec's fixture date, is one). -/
def dayFn : String → Nat := fun _ => 1

/-- A weekly Monday rule 09:00–12:00 with no breaks. -/
def mondayRule : AvailabilityRule :=
  { id := "rule-1", doctorId := "doc-1", clinicId := "cli-1",
    dayOfWeek := some 1, startTime := "09:00", endTime := "12:00",
    breaks := [], isActive := true }

/-- A store with one doctor assigned to one clinic under `mondayRule` and no
bookings yet. -/
def baseStore : Store :=
  { doctors := ["doc-1"], doctorClinic := [("doc-1", "cli-1")],
    rules := [mondayRule], bookings := [] }

/-- A booking request for the Monday 2025-06-02 with no explicit time. -/
def mondayBody : CreateBookingBody :=
  { clinicId := "cli-1", patientId := "pat-1", appointmentTypeId := none,
    serialDate := "2025-06-02", scheduledAt := none }

/-- `baseStore` after one successful creation (serial 1). -/
def storeA : Store := (createBooking baseStore dayFn "bk-1" "doc-1" mondayBody).store

/-- ... after a second creation (serials 1, 2). -/
def storeB : Store := (createBooking storeA dayFn "bk-2" "doc-1" mondayBody).store

/-- ... after a third creation (serials 1, 2, 3). -/
def storeC : Store := (createBooking storeB dayFn "bk-3" "doc-1" mondayBody).store

/-- ... after hard-deleting booking `bk-2` (serials 1, 3: a gap below the
maximum). -/
def storeD : Store := (deleteBooking storeC "bk-2").store

/-- ... after hard-deleting booking `bk-3`, the holder of the day's highest
serial (serial 1 remains). -/
def storeE : Store := (deleteBooking storeD "bk-3").store

/-- `storeB` after hard-deleting `bk-2`, the gap-free maximum case
(serial 1 remains, deleted serial was 2 = surviving max + 1). -/
def storeBdel : Store := (deleteBooking storeB "bk-2").store

/-- A confirmed booking row, for the cancellation-note scenario D. -/
def confirmedRow : BookingRow :=
  { id := "bk-7", doctorId := "doc-1", clinicId := "cli-1",
    patientId := "pat-1", appointmentTypeId := none,
    bookingStatus := .confirmed, dailySerial := 1,
    serialDate := "2025-06-02", scheduledAt := none, cancelNote := none }

/-- `baseStore` holding just `confirmedRow`. -/
def storeConfirmed : Store := { baseStore with bookings := [confirmedRow] }

/-- An update event about `confirmedRow` (booking id "bk-7", owned by
patient "pat-1") on the (doc-1, 2025-06-02) channel. -/
def evtConfirmed : QueueEvent :=
  { type := .booking_updated, bookingId := "bk-7", doctorId := "doc-1",
    date := "2025-06-02", serial := some 1, status := some .confirmed }

/-- The row deleted from `storeB` by the gap-free hard delete (serial 2,
that day's maximum). -/
def deletedRowB : BookingRow := mkBookingRow "bk-2" "doc-1" mondayBody 2

/-- The row created right after that delete (it is assigned serial 2 again). -/
def createdRowB : BookingRow := mkBookingRow "bk-5" "doc-1" mondayBody 2

/-- The 12 slots of scenario A (Monday 09:00–12:00, 15-minute grid). -/
def scenarioASlots : List TimeSlot :=
  [⟨"09:00", "09:15", true, 1⟩, ⟨"09:15", "09:30", true, 2⟩,
   ⟨"09:30", "09:45", true, 3⟩, ⟨"09:45", "10:00", true, 4⟩,
   ⟨"10:00", "10:15", true, 5⟩, ⟨"10:15", "10:30", true, 6⟩,
   ⟨"10:30", "10:45", true, 7⟩, ⟨"10:45", "11:00", true, 8⟩,
   ⟨"11:00", "11:15", true, 9⟩, ⟨"11:15", "11:30", true, 10⟩,
   ⟨"11:30", "11:45", true, 11⟩, ⟨"11:45", "12:00", true, 12⟩]

deriving instance DecidableEq for Except

/-! ## Helper lemmas -/

theorem init_le_foldl_max (l : List Nat) (i : Nat) : i ≤ l.foldl max i := by
  induction l generalizing i with
  | nil => simp
  | cons a t ih => exact le_trans (le_max_left i a) (ih (max i a))

theorem mem_le_foldl_max (l : List Nat) (i a : Nat) (h : a ∈ l) :
    a ≤ l.foldl max i := by
  induction l generalizing i with
  | nil => cases h
  | cons b t ih =>
    rcases List.mem_cons.mp h with rfl | h2
    · exact le_trans (le_max_right i a) (init_le_foldl_max t (max i a))
    · exact ih (max i b) h2

/-- Every row of the (doctorId, serialDate) day is bounded by the day's
`COALESCE(MAX(daily_serial), 0)`. -/
theorem dailySerial_le_max (bookings : List BookingRow)
    (doctorId serialDate : String) (b : BookingRow) (hb : b ∈ bookings)
    (hm : matchesDay b doctorId serialDate = true) :
    b.dailySerial ≤ maxDailySerial bookings doctorId serialDate :=
  mem_le_foldl_max _ _ _
    (List.mem_map_of_mem (fun b => b.dailySerial)
      (List.mem_filter.mpr ⟨hb, hm⟩))

/-- The allocator's result is strictly above every serial already assigned
for the doctor and date. -/
theorem dailySerial_lt_alloc (bookings : List BookingRow)
    (doctorId serialDate : String) (b : BookingRow) (hb : b ∈ bookings)
    (hm : matchesDay b doctorId serialDate = true) :
    b.dailySerial < allocateSerial bookings doctorId serialDate :=
  Nat.lt_succ_of_le (dailySerial_le_max bookings doctorId serialDate b hb hm)

theorem poaw_nil : publishesOnlyAfterWrite [] := by
  intro i
  exact absurd i.isLt (by simp)

theorem poaw_pair (e : QueueEvent) :
    publishesOnlyAfterWrite [Action.dbWrite, Action.publish e] := by
  intro i hi
  rcases i with ⟨iv, hlt⟩
  match iv, hlt with
  | 0, _ =>
    obtain ⟨e', he⟩ := hi
    exact absurd he (by simp [List.get])
  | 1, _ =>
    exact ⟨⟨0, by omega⟩, by simp, rfl⟩

/-- Shape analysis of `createBooking`: it either fails leaving the store
untouched and publishing nothing, or appends exactly the freshly serialled
row and performs the write-then-publish pair. -/
theorem createBooking_cases (s : Store) (g : String → Nat)
    (newId doctorId : String) (body : CreateBookingBody) :
    (∃ e, createBooking s g newId doctorId body =
      { result := .error e, store := s, actions := [] }) ∨
    createBooking s g newId doctorId body =
      { result := .ok (mkBookingRow newId doctorId body
          (allocateSerial s.bookings doctorId body.serialDate))
        store := { s with bookings := s.bookings ++
          [mkBookingRow newId doctorId body
            (allocateSerial s.bookings doctorId body.serialDate)] }
        actions := [Action.dbWrite, Action.publish
          { type := .booking_created, bookingId := newId, doctorId := doctorId,
            date := body.serialDate,
            serial := some (allocateSerial s.bookings doctorId body.serialDate),
            status := some BookingStatus.pending }] } := by
  rcases hx : getDoctorOrThrow s doctorId with e | u
  · exact Or.inl ⟨e, by simp [createBooking, hx]⟩
  rcases hy : assertDoctorInClinic s doctorId body.clinicId with e | u2
  · exact Or.inl ⟨e, by simp [createBooking, hx, hy]⟩
  rcases hz : assertWithinAvailability s.rules g doctorId body.clinicId
      body.serialDate body.scheduledAt with e | u3
  · exact Or.inl ⟨e, by simp [createBooking, hx, hy, hz]⟩
  · exact Or.inr (by simp [createBooking, hx, hy, hz, mkBookingRow])

/-- Shape analysis of `updateBooking`: it either fails leaving the store
untouched and publishing nothing, or patches the matching rows and performs
the write-then-publish pair with the status-dependent event type. -/
theorem updateBooking_cases (s : Store) (id : String) (patch : UpdateBookingBody) :
    (∃ e, updateBooking s id patch =
      { result := .error e, store := s, actions := [] }) ∨
    (∃ row0, findBooking s id = some row0 ∧
      updateBooking s id patch =
        { result := .ok (applyPatch row0 patch)
          store := { s with bookings := s.bookings.map (fun b => if b.id == id then applyPatch b patch else b) }
          actions := [Action.dbWrite, Action.publish
            { type := if (applyPatch row0 patch).bookingStatus == .cancelled
                then .booking_cancelled else .booking_updated
              bookingId := row0.id, doctorId := row0.doctorId
              date := row0.serialDate, serial := some row0.dailySerial
              status := some (applyPatch row0 patch).bookingStatus }] }) := by
  rcases hb : patch.bookingStatus with _ | requested
  · rcases hf : findBooking s id with _ | row0
    · exact Or.inl ⟨errBookingNotFound, by simp [updateBooking, hb, hf]⟩
    · exact Or.inr ⟨row0, rfl, by simp [updateBooking, hb, hf, applyPatch]⟩
  · rcases hf : findBooking s id with _ | current
    · exact Or.inl ⟨errBookingNotFound, by simp [updateBooking, hb, hf]⟩
    · rcases ht : assertValidTransition current.bookingStatus requested with e | u
      · exact Or.inl ⟨e, by simp [updateBooking, hb, hf, ht]⟩
      · rcases hcond : (some requested == some BookingStatus.cancelled &&
            (patch.cancelNote.getD "").isEmpty) with _ | _
        · have hcond2 : ¬(requested = BookingStatus.cancelled ∧
              (patch.cancelNote.getD "").isEmpty = true) := by
            intro hc
            rw [hc.1] at hcond
            simp [hc.2] at hcond
          exact Or.inr ⟨current, rfl,
            by simp [updateBooking, hb, hf, ht, applyPatch, hcond2]⟩
        · have hcond2 : requested = BookingStatus.cancelled ∧
              (patch.cancelNote.getD "").isEmpty = true := by
            simpa using hcond
          rw [hcond2.1] at ht
          exact Or.inl ⟨errCancelNoteRequired,
            by simp [updateBooking, hb, hf, ht, hcond2]⟩

/-- Shape analysis of `deleteBooking`. -/
theorem deleteBooking_cases (s : Store) (id : String) :
    (findBooking s id = none ∧ deleteBooking s id =
      { result := .error errBookingNotFound, store := s, actions := [] }) ∨
    (∃ row, findBooking s id = some row ∧
      deleteBooking s id =
        { result := .ok row
          store := { s with bookings := s.bookings.filter (fun b => !(b.id == id)) }
          actions := [Action.dbWrite, Action.publish
            { type := .booking_cancelled, bookingId := row.id
              doctorId := row.doctorId, date := row.serialDate
              serial := none, status := none }] }) := by
  rcases hf : findBooking s id with _ | row
  · exact Or.inl ⟨rfl, by simp [deleteBooking, hf]⟩
  · exact Or.inr ⟨row, rfl, by simp [deleteBooking, hf]⟩

/-- A successful creation appends a row whose serial is strictly above the
day's maximum, so the uniqueness constraint survives. -/
theorem uniqueTriples_create (s : Store) (g : String → Nat)
    (newId doctorId : String) (body : CreateBookingBody)
    (h : UniqueTriples s) :
    UniqueTriples (createBooking s g newId doctorId body).store := by
  rcases createBooking_cases s g newId doctorId body with ⟨e, hc⟩ | hc
  · rw [hc]
    exact h
  · rw [hc]
    unfold UniqueTriples at h ⊢
    rw [List.pairwise_append]
    refine ⟨h, List.pairwise_singleton _ _, ?_⟩
    intro a ha b hb
    rcases List.mem_singleton.mp hb with rfl
    rintro ⟨hdoc, hdate, hser⟩
    simp only [mkBookingRow] at hdoc hdate hser
    have hm : matchesDay a doctorId body.serialDate = true := by
      simp [matchesDay, hdoc, hdate]
    have hlt := dailySerial_lt_alloc s.bookings doctorId body.serialDate a ha hm
    omega

/-- Patching a row never touches its (doctorId, serialDate, dailySerial)
triple, so the uniqueness constraint survives updates. -/
theorem uniqueTriples_update (s : Store) (id : String)
    (patch : UpdateBookingBody) (h : UniqueTriples s) :
    UniqueTriples (updateBooking s id patch).store := by
  rcases updateBooking_cases s id patch with ⟨e, hc⟩ | ⟨row0, _, hc⟩
  · rw [hc]
    exact h
  · rw [hc]
    unfold UniqueTriples at h ⊢
    refine List.Pairwise.map _ ?_ h
    intro a b hab hcontra
    apply hab
    rcases hcontra with ⟨h1, h2, h3⟩
    by_cases ha : (a.id == id) = true <;> by_cases hb : (b.id == id) = true <;>
      simp [ha, hb, applyPatch] at h1 h2 h3 <;> exact ⟨h1, h2, h3⟩

/-- Deleting rows only shrinks the table, so the uniqueness constraint
survives hard deletes. -/
theorem uniqueTriples_delete (s : Store) (id : String) (h : UniqueTriples s) :
    UniqueTriples (deleteBooking s id).store := by
  rcases deleteBooking_cases s id with ⟨_, hc⟩ | ⟨row, _, hc⟩
  · rw [hc]
    exact h
  · rw [hc]
    exact List.Pairwise.sublist (List.filter_sublist _) h

/-- The uniqueness constraint holds in every reachable store state. -/
theorem reachable_uniqueTriples (g : String → Nat) (s : Store)
    (h : Reachable g s) : UniqueTriples s := by
  induction h with
  | init d dc r => exact List.Pairwise.nil
  | create s newId doctorId body hr ih =>
    exact uniqueTriples_create s g newId doctorId body ih
  | update s id patch hr ih => exact uniqueTriples_update s id patch ih
  | delete s id hr ih => exact uniqueTriples_delete s id ih

theorem div_step (d cursor endM : Nat) (hd : 0 < d) (h : cursor + d ≤ endM) :
    (endM - cursor) / d = (endM - (cursor + d)) / d + 1 := by
  have h2 : endM - cursor = (endM - (cursor + d)) + d := by omega
  rw [h2, Nat.add_div_right _ hd]

/-- Peeling one step off the slot grid. -/
theorem steps_cons (d cursor endM : Nat) (hd : 0 < d) (h : cursor + d ≤ endM) :
    (List.range ((endM - cursor) / d)).map (fun k => cursor + k * d) =
      cursor :: (List.range ((endM - (cursor + d)) / d)).map
        (fun k => (cursor + d) + k * d) := by
  rw [div_step d cursor endM hd h, List.range_succ_eq_map, List.map_cons,
    List.map_map]
  refine congrArg₂ List.cons (by simp) ?_
  apply List.map_congr_left
  intro k _
  simp [Function.comp]
  ring

/-- The slot loop, characterized in closed form: it emits exactly the
non-break steps of the grid, serialled consecutively from the running
counter. -/
theorem slotsGo_eq_spec (d : Nat) (hd : 0 < d) (endM : Nat)
    (breaks : List BreakSlot) (booked : List Nat) :
    ∀ n cursor serial, endM - cursor ≤ n →
      slotsGo d endM hd breaks booked cursor serial =
        ((((List.range ((endM - cursor) / d)).map (fun k => cursor + k * d)).filter
          (fun c => !(isDuringBreak c breaks))).enumFrom serial).map (fun p =>
            { start := minutesToTime p.2, stop := minutesToTime (p.2 + d),
              available := !(booked.contains p.1), serial := p.1 }) := by
  intro n
  induction n with
  | zero =>
    intro cursor serial h
    have hc : ¬(cursor + d ≤ endM) := by omega
    have h0 : endM - cursor = 0 := by omega
    rw [slotsGo.eq_def, dif_neg hc]
    simp [h0]
  | succ n ih =>
    intro cursor serial h
    by_cases hc : cursor + d ≤ endM
    · rw [steps_cons d cursor endM hd hc]
      cases hbr : isDuringBreak cursor breaks
      · rw [List.filter_cons_of_pos (by simp [hbr]), List.enumFrom_cons,
          List.map_cons]
        conv_lhs => rw [slotsGo.eq_def]
        rw [dif_pos hc, if_neg (by simp [hbr])]
        exact congrArg₂ List.cons rfl (ih (cursor + d) (serial + 1) (by omega))
      · rw [List.filter_cons_of_neg (by simp [hbr])]
        conv_lhs => rw [slotsGo.eq_def]
        rw [dif_pos hc, if_pos hbr]
        exact ih (cursor + d) serial (by omega)
    · have h0 : (endM - cursor) / d = 0 := Nat.div_eq_of_lt (by omega)
      conv_lhs => rw [slotsGo.eq_def]
      rw [dif_neg hc]
      simp [h0]

/-- The source loop refines the spec-level slot description for every
positive slot duration. -/
theorem computeSlots_eq_spec (startTime endTime : String)
    (breaks : List BreakSlot) (booked : List Nat) (d : Nat) (hd : 0 < d) :
    computeSlots startTime endTime breaks booked d =
      computeSlotsSpec (timeToMinutes startTime) (timeToMinutes endTime) d
        breaks booked := by
  unfold computeSlots computeSlotsSpec
  rw [dif_pos hd]
  exact slotsGo_eq_spec d hd (timeToMinutes endTime) breaks booked
    (timeToMinutes endTime - timeToMinutes startTime) (timeToMinutes startTime)
    1 le_rfl

/-! ## Claim theorems -/

/-- C3: for every current status and every requested status,
`assertValidTransition` succeeds iff the pair is one of
pending→confirmed, pending→cancelled, confirmed→completed,
confirmed→cancelled, confirmed→no_show, and otherwise throws the
`INVALID_TRANSITION` `AppError`; in particular every self-transition fails
and every transition out of cancelled, completed, no_show fails. -/
theorem transition_soundness :
    (∀ current next : BookingStatus,
      assertValidTransition current next = .ok () ↔
        (current, next) ∈ ([(.pending, .confirmed), (.pending, .cancelled),
          (.confirmed, .completed), (.confirmed, .cancelled),
          (.confirmed, .no_show)] : List (BookingStatus × BookingStatus))) ∧
    (∀ current next : BookingStatus,
      assertValidTransition current next = .ok () ∨
        assertValidTransition current next =
          .error (errInvalidTransition current next)) ∧
    (∀ v : BookingStatus,
      assertValidTransition v v = .error (errInvalidTransition v v)) ∧
    (∀ v : BookingStatus,
      assertValidTransition .cancelled v =
        .error (errInvalidTransition .cancelled v) ∧
      assertValidTransition .completed v =
        .error (errInvalidTransition .completed v) ∧
      assertValidTransition .no_show v =
        .error (errInvalidTransition .no_show v)) := by
  refine ⟨?_, ?_, ?_, ?_⟩ <;> decide

/-- C8 (failing input for the claim): the delivery filter of
`publishQueueEvent` matches by `bookingId.startsWith(patientId)`, not by
booking ownership — the subscriber of the patient who owns booking `bk-7`
does not receive that booking's event, while a subscriber whose patient
identifier "bk" is a mere string prefix of the booking id does, although
the booking belongs to someone else. -/
theorem patient_filter_substring_mismatch :
    confirmedRow.patientId = "pat-1" ∧
    evtConfirmed.bookingId = confirmedRow.id ∧
    shouldReceive ⟨"doc-1", "2025-06-02", some "pat-1"⟩ evtConfirmed = false ∧
    shouldReceive ⟨"doc-1", "2025-06-02", some "bk"⟩ evtConfirmed = true ∧
    ("bk" : String) ≠ confirmedRow.patientId ∧
    deliveredTo [⟨"doc-1", "2025-06-02", some "pat-1"⟩,
        ⟨"doc-1", "2025-06-02", some "bk"⟩, ⟨"doc-1", "2025-06-02", none⟩]
      evtConfirmed =
      [⟨"doc-1", "2025-06-02", some "bk"⟩, ⟨"doc-1", "2025-06-02", none⟩] := by
  refine ⟨rfl, rfl, ?_, ?_, ?_, ?_⟩ <;> decide

/-- C9 (failing behavior for the claim): the queue subscription endpoint
builds its stream with `createSseStream` alone, whose start handler only
enqueues the `connected` event and never attaches a ping interval —
`startHeartbeat` (which would attach one, defaulting to 25000 ms) has no
call site — so no open subscription stream ever emits ping heartbeats. -/
theorem heartbeat_never_started (doctorId date userRole userId : String)
    (patientId : Option String) :
    (sseQueueHandler doctorId date userRole userId).2.pingEveryMs = none ∧
    (sseQueueHandler doctorId date userRole userId).2.initialEventNames =
      ["connected"] ∧
    (createSseStream doctorId date patientId).2.pingEveryMs = none ∧
    (startHeartbeat startHeartbeatDefaultMs
      (createSseStream doctorId date patientId).2).pingEveryMs = some 25000 :=
  ⟨rfl, rfl, rfl, rfl⟩

/-- C1: in every reachable booking-store state the (doctorId, serialDate,
dailySerial) triples are pairwise distinct, and `allocateSerial` returns the
day's maximum serial plus one (1 when the day has no rows), which is
strictly greater than every serial already assigned for that doctor and
date — so sequential creation preserves the uniqueness invariant. -/
theorem serial_allocator_uniqueness (g : String → Nat) (s : Store)
    (h : Reachable g s) :
    UniqueTriples s ∧
    ∀ doctorId serialDate : String,
      allocateSerial s.bookings doctorId serialDate =
        maxDailySerial s.bookings doctorId serialDate + 1 ∧
      (s.bookings.filter (fun b => matchesDay b doctorId serialDate) = [] →
        allocateSerial s.bookings doctorId serialDate = 1) ∧
      ∀ b ∈ s.bookings, matchesDay b doctorId serialDate = true →
        b.dailySerial < allocateSerial s.bookings doctorId serialDate := by
  refine ⟨reachable_uniqueTriples g s h, ?_⟩
  intro doctorId serialDate
  refine ⟨rfl, ?_, ?_⟩
  · intro hf
    unfold allocateSerial maxDailySerial
    rw [hf]
    rfl
  · intro b hb hm
    exact dailySerial_lt_alloc s.bookings doctorId serialDate b hb hm

/-- Witness for C1 at a concrete reachable state: the store obtained by two
sequential creations for doc-1 on 2025-06-02. -/
theorem serial_allocator_uniqueness_witness :
    UniqueTriples storeB ∧
    allocateSerial storeB.bookings "doc-1" "2025-06-02" =
      maxDailySerial storeB.bookings "doc-1" "2025-06-02" + 1 := by
  have h0 : Reachable dayFn baseStore :=
    Reachable.init ["doc-1"] [("doc-1", "cli-1")] [mondayRule]
  have h1 : Reachable dayFn storeA :=
    Reachable.create baseStore "bk-1" "doc-1" mondayBody h0
  have h2 : Reachable dayFn storeB :=
    Reachable.create storeA "bk-2" "doc-1" mondayBody h1
  have h := serial_allocator_uniqueness dayFn storeB h2
  exact ⟨h.1, (h.2 "doc-1" "2025-06-02").1⟩

/-- C4: the slot walk emits a slot per grid step iff the step's start
minute is inside no break (half-open containment), with the 1-based serial
counter advancing only on emitted slots — stated as a refinement of the
spec-level description — and, concretely: the 09:00–10:00 / 15-minute /
break-[570,600) fixture yields exactly the two slots 09:00–09:15 and
09:15–09:30 with serials 1 and 2, and a Monday rule 09:00–12:00 without
breaks and with no bookings yields 12 available slots with serials 1–12 in
order. -/
theorem slots_break_exclusion (startTime endTime : String)
    (breaks : List BreakSlot) (booked : List Nat) (d : Nat) (hd : 0 < d) :
    computeSlots startTime endTime breaks booked d =
      computeSlotsSpec (timeToMinutes startTime) (timeToMinutes endTime) d
        breaks booked ∧
    computeSlots "09:00" "10:00" [⟨570, 600⟩] [] 15 =
      [⟨"09:00", "09:15", true, 1⟩, ⟨"09:15", "09:30", true, 2⟩] ∧
    getSlotsForDate baseStore dayFn "doc-1" "cli-1" "2025-06-02" 15 =
      scenarioASlots ∧
    scenarioASlots.length = 12 ∧
    scenarioASlots.all (fun sl => sl.available) = true ∧
    scenarioASlots.map (fun sl => sl.serial) =
      [1, 2, 3, 4, 5, 6, 7, 8, 9, 10, 11, 12] := by
  refine ⟨computeSlots_eq_spec startTime endTime breaks booked d hd, ?_, ?_,
    by decide, by decide, by decide⟩
  · rw [computeSlots_eq_spec "09:00" "10:00" [⟨570, 600⟩] [] 15 (by decide)]
    decide
  · show computeSlots "09:00" "12:00" [] [] 15 = scenarioASlots
    rw [computeSlots_eq_spec "09:00" "12:00" [] [] 15 (by decide)]
    decide

/-- Witness for C4 at the fixture inputs (slot duration 15). -/
theorem slots_break_exclusion_witness :
    computeSlots "09:00" "10:00" [⟨570, 600⟩] [] 15 =
      computeSlotsSpec 540 600 15 [⟨570, 600⟩] [] :=
  (slots_break_exclusion "09:00" "10:00" [⟨570, 600⟩] [] 15 (by decide)).1

/-- C5: `createBooking` checks its preconditions in source order, each
failure leaving the store untouched with the matching typed error — missing
doctor 404, doctor not in clinic `DOCTOR_NOT_IN_CLINIC`, no matching active
rule `NO_AVAILABILITY`, supplied time-of-day outside `[startTime, endTime)`
`OUTSIDE_HOURS`, inside a break `DURING_BREAK` — and when every check
passes it inserts and returns the row carrying the allocated serial. -/
theorem createBooking_precondition_order (s : Store) (g : String → Nat)
    (newId doctorId : String) (body : CreateBookingBody)
    (rule : AvailabilityRule) (t : Nat) :
    (s.doctors.contains doctorId = false →
      createBooking s g newId doctorId body =
        { result := .error errDoctorNotFound, store := s, actions := [] }) ∧
    (s.doctors.contains doctorId = true →
      s.doctorClinic.contains (doctorId, body.clinicId) = false →
      createBooking s g newId doctorId body =
        { result := .error errDoctorNotInClinic, store := s, actions := [] }) ∧
    (s.doctors.contains doctorId = true →
      s.doctorClinic.contains (doctorId, body.clinicId) = true →
      findActiveRule s.rules g doctorId body.clinicId body.serialDate = none →
      createBooking s g newId doctorId body =
        { result := .error errNoAvailability, store := s, actions := [] }) ∧
    (s.doctors.contains doctorId = true →
      s.doctorClinic.contains (doctorId, body.clinicId) = true →
      findActiveRule s.rules g doctorId body.clinicId body.serialDate = some rule →
      body.scheduledAt = some t →
      (t < timeToMinutes rule.startTime ∨ timeToMinutes rule.endTime ≤ t) →
      createBooking s g newId doctorId body =
        { result := .error (errOutsideHours rule), store := s, actions := [] }) ∧
    (s.doctors.contains doctorId = true →
      s.doctorClinic.contains (doctorId, body.clinicId) = true →
      findActiveRule s.rules g doctorId body.clinicId body.serialDate = some rule →
      body.scheduledAt = some t →
      ¬(t < timeToMinutes rule.startTime ∨ timeToMinutes rule.endTime ≤ t) →
      rule.breaks.any (fun b => decide (b.start ≤ t ∧ t < b.stop)) = true →
      createBooking s g newId doctorId body =
        { result := .error errDuringBreak, store := s, actions := [] }) ∧
    (s.doctors.contains doctorId = true →
      s.doctorClinic.contains (doctorId, body.clinicId) = true →
      assertWithinAvailability s.rules g doctorId body.clinicId body.serialDate
        body.scheduledAt = .ok () →
      createBooking s g newId doctorId body =
        { result := .ok (mkBookingRow newId doctorId body
            (allocateSerial s.bookings doctorId body.serialDate))
          store := { s with bookings := s.bookings ++
            [mkBookingRow newId doctorId body
              (allocateSerial s.bookings doctorId body.serialDate)] }
          actions := [Action.dbWrite, Action.publish
            { type := .booking_created, bookingId := newId,
              doctorId := doctorId, date := body.serialDate,
              serial := some (allocateSerial s.bookings doctorId body.serialDate),
              status := some BookingStatus.pending }] }) := by
  refine ⟨?_, ?_, ?_, ?_, ?_, ?_⟩
  · intro h1
    have h1m : doctorId ∉ s.doctors := by simpa using h1
    simp [createBooking, getDoctorOrThrow, h1m]
  · intro h1 h2
    have h1m : doctorId ∈ s.doctors := by simpa using h1
    have h2m : (doctorId, body.clinicId) ∉ s.doctorClinic := by simpa using h2
    simp [createBooking, getDoctorOrThrow, assertDoctorInClinic, h1m, h2m]
  · intro h1 h2 h3
    have h1m : doctorId ∈ s.doctors := by simpa using h1
    have h2m : (doctorId, body.clinicId) ∈ s.doctorClinic := by simpa using h2
    simp [createBooking, getDoctorOrThrow, assertDoctorInClinic,
      assertWithinAvailability, h1m, h2m, h3]
  · intro h1 h2 h3 h4 h5
    have h1m : doctorId ∈ s.doctors := by simpa using h1
    have h2m : (doctorId, body.clinicId) ∈ s.doctorClinic := by simpa using h2
    simp only [createBooking, getDoctorOrThrow, assertDoctorInClinic,
      assertWithinAvailability, h3, h4, if_pos h5]
    simp [h1m, h2m]
  · intro h1 h2 h3 h4 h5 h6
    have h1m : doctorId ∈ s.doctors := by simpa using h1
    have h2m : (doctorId, body.clinicId) ∈ s.doctorClinic := by simpa using h2
    simp only [createBooking, getDoctorOrThrow, assertDoctorInClinic,
      assertWithinAvailability, h3, h4, if_neg h5, if_pos h6]
    simp [h1m, h2m]
  · intro h1 h2 h3
    have h1m : doctorId ∈ s.doctors := by simpa using h1
    have h2m : (doctorId, body.clinicId) ∈ s.doctorClinic := by simpa using h2
    simp [createBooking, getDoctorOrThrow, assertDoctorInClinic, h1m, h2m, h3,
      mkBookingRow]

/-- Witness for C5: a creation against an unknown doctor fails with the 404
error and no write, and the first creation for doc-1 on 2025-06-02 returns
the row with serial 1. -/
theorem createBooking_precondition_order_witness :
    createBooking baseStore dayFn "bk-x" "doc-9" mondayBody =
      { result := .error errDoctorNotFound, store := baseStore, actions := [] } ∧
    createBooking baseStore dayFn "bk-1" "doc-1" mondayBody =
      { result := .ok (mkBookingRow "bk-1" "doc-1" mondayBody
          (allocateSerial baseStore.bookings "doc-1" "2025-06-02"))
        store := { baseStore with bookings := baseStore.bookings ++
          [mkBookingRow "bk-1" "doc-1" mondayBody
            (allocateSerial baseStore.bookings "doc-1" "2025-06-02")] }
        actions := [Action.dbWrite, Action.publish
          { type := .booking_created, bookingId := "bk-1",
            doctorId := "doc-1", date := "2025-06-02",
            serial := some (allocateSerial baseStore.bookings "doc-1" "2025-06-02"),
            status := some BookingStatus.pending }] } := by
  constructor
  · exact (createBooking_precondition_order baseStore dayFn "bk-x" "doc-9"
      mondayBody mondayRule 0).1 (by decide)
  · exact (createBooking_precondition_order baseStore dayFn "bk-1" "doc-1"
      mondayBody mondayRule 0).2.2.2.2.2 (by decide) (by decide) (by decide)

/-- C6: for every `createBooking` and `updateBooking` call, an event is
published only after the database write completed — a failing call performs
no publish at all, and a successful call performs exactly one publish
(`booking_created` on creation; `booking_cancelled` when the updated row's
status is cancelled, `booking_updated` otherwise), strictly after the
write in the action trace. -/
theorem events_follow_commit (s : Store) (g : String → Nat)
    (newId doctorId : String) (body : CreateBookingBody) (id : String)
    (patch : UpdateBookingBody) :
    (∀ e, (createBooking s g newId doctorId body).result = .error e →
      (createBooking s g newId doctorId body).actions = []) ∧
    (∀ row, (createBooking s g newId doctorId body).result = .ok row →
      (createBooking s g newId doctorId body).actions =
        [Action.dbWrite, Action.publish
          { type := .booking_created, bookingId := row.id, doctorId := doctorId,
            date := body.serialDate, serial := some row.dailySerial,
            status := some row.bookingStatus }]) ∧
    (∀ e, (updateBooking s id patch).result = .error e →
      (updateBooking s id patch).actions = []) ∧
    (∀ row, (updateBooking s id patch).result = .ok row →
      (updateBooking s id patch).actions =
        [Action.dbWrite, Action.publish
          { type := if row.bookingStatus == .cancelled then .booking_cancelled
              else .booking_updated
            bookingId := row.id, doctorId := row.doctorId
            date := row.serialDate, serial := some row.dailySerial
            status := some row.bookingStatus }]) ∧
    publishesOnlyAfterWrite (createBooking s g newId doctorId body).actions ∧
    publishesOnlyAfterWrite (updateBooking s id patch).actions := by
  refine ⟨?_, ?_, ?_, ?_, ?_, ?_⟩
  · intro e he
    rcases createBooking_cases s g newId doctorId body with ⟨e0, hc⟩ | hc <;>
      rw [hc] at he ⊢
    simp at he
  · intro row he
    rcases createBooking_cases s g newId doctorId body with ⟨e0, hc⟩ | hc <;>
      rw [hc] at he ⊢
    · simp at he
    · simp only [Except.ok.injEq] at he
      subst he
      rfl
  · intro e he
    rcases updateBooking_cases s id patch with ⟨e0, hc⟩ | ⟨row0, hf0, hc⟩ <;>
      rw [hc]
    rw [hc] at he
    simp at he
  · intro row he
    rcases updateBooking_cases s id patch with ⟨e0, hc⟩ | ⟨row0, hf0, hc⟩ <;>
      rw [hc] at he ⊢
    · simp at he
    · simp only [Except.ok.injEq] at he
      subst he
      rfl
  · rcases createBooking_cases s g newId doctorId body with ⟨e0, hc⟩ | hc <;>
      rw [hc]
    · exact poaw_nil
    · exact poaw_pair _
  · rcases updateBooking_cases s id patch with ⟨e0, hc⟩ | ⟨row0, hf0, hc⟩ <;>
      rw [hc]
    · exact poaw_nil
    · exact poaw_pair _

/-- Witness for C6: a creation against an unknown doctor publishes nothing;
a successful creation publishes the single `booking_created` event after
the write. -/
theorem events_follow_commit_witness :
    (createBooking baseStore dayFn "bk-x" "doc-9" mondayBody).actions = [] ∧
    (createBooking baseStore dayFn "bk-1" "doc-1" mondayBody).actions =
      [Action.dbWrite, Action.publish
        { type := .booking_created, bookingId := "bk-1", doctorId := "doc-1",
          date := "2025-06-02", serial := some 1,
          status := some BookingStatus.pending }] := by
  have h := events_follow_commit baseStore dayFn "bk-x" "doc-9" mondayBody
    "bk-x" { bookingStatus := none, cancelNote := none, scheduledAt := none }
  have h2 := events_follow_commit baseStore dayFn "bk-1" "doc-1" mondayBody
    "bk-1" { bookingStatus := none, cancelNote := none, scheduledAt := none }
  exact ⟨h.1 errDoctorNotFound (by decide),
    h2.2.1 (mkBookingRow "bk-1" "doc-1" mondayBody 1) (by decide)⟩

/-- C7: updating a booking to `cancelled` without a non-empty `cancelNote`
is rejected with the `CANCEL_NOTE_REQUIRED` validation error and changes
nothing; the same patch with a non-empty note against a booking whose
current status is `confirmed` succeeds, yields the cancelled row and
publishes one `booking_cancelled` event carrying that booking's
(doctorId, serialDate) channel coordinates. -/
theorem cancellation_note_gate (s : Store) (id : String) (row : BookingRow)
    (hfind : findBooking s id = some row)
    (hst : row.bookingStatus = BookingStatus.confirmed) :
    (∀ note : Option String, (note.getD "").isEmpty = true →
      updateBooking s id
          { bookingStatus := some .cancelled, cancelNote := note,
            scheduledAt := none } =
        { result := .error errCancelNoteRequired, store := s, actions := [] }) ∧
    (∀ note : String, note.isEmpty = false →
      (updateBooking s id
          { bookingStatus := some .cancelled, cancelNote := some note,
            scheduledAt := none }).result =
        .ok (applyPatch row
          { bookingStatus := some .cancelled, cancelNote := some note,
            scheduledAt := none }) ∧
      (applyPatch row
        { bookingStatus := some .cancelled, cancelNote := some note,
          scheduledAt := none }).bookingStatus = .cancelled ∧
      (updateBooking s id
          { bookingStatus := some .cancelled, cancelNote := some note,
            scheduledAt := none }).actions =
        [Action.dbWrite, Action.publish
          { type := .booking_cancelled, bookingId := row.id
            doctorId := row.doctorId, date := row.serialDate
            serial := some row.dailySerial
            status := some BookingStatus.cancelled }]) := by
  have htrans : assertValidTransition row.bookingStatus BookingStatus.cancelled =
      .ok () := by
    rw [hst]
    decide
  constructor
  · intro note hnote
    simp [updateBooking, hfind, htrans, hnote]
  · intro note hnote
    refine ⟨?_, rfl, ?_⟩ <;>
      simp [updateBooking, hfind, htrans, hnote, applyPatch]

/-- Witness for C7 at the scenario-D store: rejection without a note, and
success plus the cancelled event with the note "patient request". -/
theorem cancellation_note_gate_witness :
    updateBooking storeConfirmed "bk-7"
        { bookingStatus := some .cancelled, cancelNote := none,
          scheduledAt := none } =
      { result := .error errCancelNoteRequired, store := storeConfirmed,
        actions := [] } ∧
    (updateBooking storeConfirmed "bk-7"
        { bookingStatus := some .cancelled,
          cancelNote := some "patient request", scheduledAt := none }).actions =
      [Action.dbWrite, Action.publish
        { type := .booking_cancelled, bookingId := "bk-7",
          doctorId := "doc-1", date := "2025-06-02", serial := some 1,
          status := some BookingStatus.cancelled }] := by
  have h := cancellation_note_gate storeConfirmed "bk-7" confirmedRow rfl rfl
  exact ⟨h.1 none (by decide), (h.2 "patient request" (by decide)).2.2⟩

/-- C10 counterexample: after creations assign serials 1, 2, 3 and two hard
deletes remove first serial 2 and then serial 3 — the day's maximum at the
time of its deletion — the next creation for the same doctor and date is
assigned serial 2, not the serial 3 that the deleted maximum booking held. -/
theorem serial_reissue_counterexample :
    storeC.bookings.map (fun b => b.dailySerial) = [1, 2, 3] ∧
    ((deleteBooking storeC "bk-2").result.map (fun b => b.dailySerial)) =
      .ok 2 ∧
    maxDailySerial storeD.bookings "doc-1" "2025-06-02" = 3 ∧
    ((deleteBooking storeD "bk-3").result.map (fun b => b.dailySerial)) =
      .ok 3 ∧
    ((createBooking storeE dayFn "bk-4" "doc-1" mondayBody).result.map
      (fun b => b.dailySerial)) = .ok 2 ∧
    (2 : Nat) ≠ 3 := by
  refine ⟨?_, ?_, ?_, ?_, ?_, ?_⟩ <;> decide

/-- C10 (amended): `allocateSerial` depends only on the surviving maximum —
after a hard delete, a successful creation for the same doctor and date is
assigned the surviving maximum plus one, which coincides with the deleted
booking's serial exactly when that serial exceeded the surviving maximum by
one (as after gap-free allocation). -/
theorem allocate_after_delete (s : Store) (g : String → Nat)
    (newId id doctorId : String) (body : CreateBookingBody)
    (deleted created : BookingRow)
    (_hdel : (deleteBooking s id).result = .ok deleted)
    (_hdoc : deleted.doctorId = doctorId)
    (_hdate : deleted.serialDate = body.serialDate)
    (hcr : (createBooking (deleteBooking s id).store g newId doctorId
      body).result = .ok created) :
    created.dailySerial =
      maxDailySerial (deleteBooking s id).store.bookings doctorId
        body.serialDate + 1 ∧
    (created.dailySerial = deleted.dailySerial ↔
      deleted.dailySerial =
        maxDailySerial (deleteBooking s id).store.bookings doctorId
          body.serialDate + 1) := by
  rcases createBooking_cases (deleteBooking s id).store g newId doctorId body
    with ⟨e, hc⟩ | hc
  · rw [hc] at hcr
    simp at hcr
  · rw [hc] at hcr
    simp only [Except.ok.injEq] at hcr
    subst hcr
    exact ⟨rfl, ⟨fun h => h.symm, fun h => h.symm⟩⟩

/-- Witness for C10's amended claim at the gap-free instance: serials 1, 2;
the serial-2 maximum is hard-deleted; the next creation is assigned 2 — the
deleted serial is reissued because it equals surviving maximum 1 plus one. -/
theorem allocate_after_delete_witness :
    createdRowB.dailySerial =
      maxDailySerial storeBdel.bookings "doc-1" "2025-06-02" + 1 ∧
    (createdRowB.dailySerial = deletedRowB.dailySerial ↔
      deletedRowB.dailySerial =
        maxDailySerial storeBdel.bookings "doc-1" "2025-06-02" + 1) :=
  allocate_after_delete storeB dayFn "bk-5" "bk-2" "doc-1" mondayBody
    deletedRowB createdRowB (by decide) (by decide) (by decide) (by decide)

end ApiServer
